import Mathlib

/-!
Shallow embedding of the llm_outlook repository (an Outlook → LLM-summary →
ServerChan-push pipeline) and verification of its specification claims.

Conventions of the embedding:
* Python strings are Lean `String`s; Python slicing `s[:n]` is `pySlice`,
  which takes the first `n` code points (Python counts code points too).
* Timestamps (`datetime`) are integers measured in days, so that
  `datetime.now() - timedelta(days=W)` becomes `now - W`.
* Network calls are oracles passed in as explicit arguments: the outcome of
  the ServerChan webhook call at attempt `i` is `oracle i`, and the outcome
  of the LLM chat-completion call is an `Except` value (error = the Python
  call raised).
* A Python function that may raise returns `Except PyExc _`; a raised
  exception that would propagate out of a function is `Except.error`.
-/

/-- Python `s[:n]`: the first `n` characters (code points) of `s`. -/
def pySlice (s : String) (n : Nat) : String :=
  ⟨s.data.take n⟩

theorem pySlice_length_le (s : String) (n : Nat) : (pySlice s n).length ≤ n := by
  show (s.data.take n).length ≤ n
  rw [List.length_take]
  exact min_le_left _ _

/-!
Python string methods, modeled structurally over the character list of the
string (Lean core's position-based `String` functions do not reduce in the
kernel).  Each mirrors the CPython behaviour at the call sites that use it.
-/

/-- Python `str.isspace` characters as stripped by `str.strip()`. -/
def pyIsSpace (c : Char) : Bool :=
  c = ' ' || c = '\t' || c = '\n' || c = '\r' || c = '\x0b' || c = '\x0c'

/-- Python `s.strip()`. -/
def pyStrip (s : String) : String :=
  ⟨((s.data.dropWhile pyIsSpace).reverse.dropWhile pyIsSpace).reverse⟩

/-- Python `s.startswith(pre)`. -/
def pyStartsWith (s pre : String) : Bool :=
  pre.data.isPrefixOf s.data

/-- Python `c in s` for a single character. -/
def pyContainsChar (s : String) (c : Char) : Bool :=
  s.data.contains c

/-- Python `s.lower()` (ASCII case; the compared literals are unaffected
by full Unicode lowercasing). -/
def pyLower (s : String) : String :=
  ⟨s.data.map Char.toLower⟩

/-- Python `s.split(sep)` for a one-character separator. -/
def pySplitChar (s : String) (sep : Char) : List String :=
  (s.data.splitOn sep).map (fun l => ⟨l⟩)

/-- Python `sep.join(parts)`. -/
def pyJoin (sep : String) : List String → String
  | [] => ""
  | x :: rest => rest.foldl (fun acc p => acc ++ sep ++ p) x

/-- Fueled scan for `str.replace`: leftmost non-overlapping occurrences. -/
def pyReplaceAux (pat rep : List Char) : Nat → List Char → List Char
  | 0, l => l
  | _, [] => []
  | fuel + 1, c :: rest =>
    if pat ≠ [] ∧ pat.isPrefixOf (c :: rest) then
      rep ++ pyReplaceAux pat rep fuel ((c :: rest).drop pat.length)
    else
      c :: pyReplaceAux pat rep fuel rest

/-- Python `s.replace(pat, rep)` (call sites use non-empty patterns). -/
def pyReplace (s pat rep : String) : String :=
  ⟨pyReplaceAux pat.data rep.data s.data.length s.data⟩

/-- A Python exception value. -/
inductive PyExc where
  | attributeError (msg : String)
  | other (msg : String)
  deriving Repr, DecidableEq

/-! ## Data model (`src/models`) -/

/-- `models/email.py` `EmailData` (timestamps as integer days). -/
structure EmailData where
  uid : String
  subject : String
  sender : String
  recipients : List String
  content : String
  raw_content : String
  timestamp : Int
  message_id : String
  deriving Repr, DecidableEq

/-- `models/parser.py` `ParseResult` (single-email parse). -/
structure ParseResult where
  summary : String
  key_points : List String
  content : String
  attachments : List String
  category : String
  deriving Repr, DecidableEq

/-- `models/parser.py` `EmailSummaryResult` (batch parse).  The Python
`email_summaries` dict (int key, insertion-ordered) is an association list
with Python-dict update semantics, see `dictSet`. -/
structure EmailSummaryResult where
  has_important_emails : Bool
  overall_summary : String
  email_summaries : List (Nat × String)
  push_title : String
  push_content : String
  deriving Repr, DecidableEq

/-- The attributes defined on the `EmailSummaryResult` dataclass: its five
fields plus the two dict-conversion methods.  Looking up any other
attribute name (in particular `split`) raises `AttributeError`. -/
def EmailSummaryResult.attrNames : List String :=
  ["has_important_emails", "overall_summary", "email_summaries",
   "push_title", "push_content", "to_dict", "from_dict"]

def EmailSummaryResult.hasAttr (name : String) : Bool :=
  name ∈ EmailSummaryResult.attrNames

/-- `models/pusher.py` `PushResult`. -/
structure PushResult where
  success : Bool
  message : String
  push_id : String
  deriving Repr, DecidableEq

/-! ## Pusher (`src/core/message_pusher.py`, class `ServerChanPusher`) -/

/-- Outcome of one webhook attempt (the body of the `try` in
`ServerChanPusher.push`): the JSON response (with its optional `code`,
`message` and `data.pushid` entries), or one of the exception classes the
code distinguishes (`HTTPError` with its status code, `URLError`, anything
else). -/
inductive AttemptOutcome where
  | response (code : Option Int) (message : Option String) (pushid : Option String)
  | httpError (code : Int)
  | urlError
  | otherExc
  deriving Repr, DecidableEq

/-- `ServerChanPusher` instance state set in `__init__`. -/
structure ServerChanPusher where
  sendkey : String
  url : String
  max_retry : Nat
  retry_delay : Nat
  deriving Repr, DecidableEq

/-- `ServerChanPusher.__init__(sendkey, url)`: despite its comment (and the
`sendkey` parameter), the code assigns a hardcoded constant to
`self.sendkey`, ignoring the argument. -/
def ServerChanPusher.init (_sendkey url : Option String) : ServerChanPusher :=
  { sendkey := "SCT154542THtyS9cBPpp5PuiHwzGaIXeR8"
    url := url.getD "https://sctapi.ftqq.com/"
    max_retry := 3
    retry_delay := 10 }

/-- The POST request `push` builds each attempt: target URL
`url + sendkey + ".send"` and the form data `title`/`desp` fields. -/
def ServerChanPusher.buildRequest (p : ServerChanPusher) (title content : String) :
    String × List (String × String) :=
  (p.url ++ p.sendkey ++ ".send", [("title", title), ("desp", content)])

/-- Observable result of a `push` call: the returned `PushResult`, the
number of webhook calls made (`urlopen` invocations), the sequence of
`time.sleep` delays performed, and the request that was built. -/
structure PushTrace where
  result : PushResult
  calls : Nat
  sleeps : List Nat
  request : String × List (String × String)
  deriving Repr, DecidableEq

/-- The retry loop of `ServerChanPusher.push`, iterating over the remaining
attempt indices (`for attempt in range(self.max_retry)`).  Each iteration
makes one webhook call; `time.sleep(self.retry_delay)` runs only when
another attempt remains (`attempt < self.max_retry - 1`). -/
def pushAttempts (p : ServerChanPusher) (oracle : Nat → AttemptOutcome) :
    List Nat → PushResult × Nat × List Nat
  | [] => (⟨false, "推送失败，已重试" ++ toString p.max_retry ++ "次", ""⟩, 0, [])
  | a :: rest =>
    match oracle a with
    | .response code msg pid =>
      if code = some 0 then
        (⟨true, "推送成功", pid.getD ""⟩, 1, [])
      else
        (⟨false, "推送失败: " ++ msg.getD "未知错误", ""⟩, 1, [])
    | .httpError c =>
      if c = 400 then
        (⟨false, "推送参数错误", ""⟩, 1, [])
      else
        let s : List Nat := if rest.isEmpty then [] else [p.retry_delay]
        let next := pushAttempts p oracle rest
        (next.1, next.2.1 + 1, s ++ next.2.2)
    | .urlError =>
      let s : List Nat := if rest.isEmpty then [] else [p.retry_delay]
      let next := pushAttempts p oracle rest
      (next.1, next.2.1 + 1, s ++ next.2.2)
    | .otherExc =>
      let s : List Nat := if rest.isEmpty then [] else [p.retry_delay]
      let next := pushAttempts p oracle rest
      (next.1, next.2.1 + 1, s ++ next.2.2)

/-- `ServerChanPusher.push(title, content)`. -/
def ServerChanPusher.push (p : ServerChanPusher) (oracle : Nat → AttemptOutcome)
    (title content : String) : PushTrace :=
  if p.sendkey = "" then
    { result := ⟨false, "未配置Server酱SendKey", ""⟩, calls := 0, sleeps := []
      request := (p.url, []) }
  else
    { result := (pushAttempts p oracle (List.range p.max_retry)).1
      calls := (pushAttempts p oracle (List.range p.max_retry)).2.1
      sleeps := (pushAttempts p oracle (List.range p.max_retry)).2.2
      request := p.buildRequest title content }

/-- An attempt outcome the retry loop retries on: a network (`URLError`) or
unknown exception, or an `HTTPError` other than 400. -/
def retryable (o : AttemptOutcome) : Prop :=
  o = .urlError ∨ o = .otherExc ∨ ∃ c, o = .httpError c ∧ c ≠ 400

/-- When every remaining attempt fails retryably, the loop runs them all:
one webhook call per attempt, a sleep between consecutive attempts, and the
retry-count failure message at the end. -/
theorem pushAttempts_all_retryable :
    ∀ (l : List Nat) (p : ServerChanPusher) (oracle : Nat → AttemptOutcome),
    (∀ a ∈ l, retryable (oracle a)) →
    pushAttempts p oracle l =
      (⟨false, "推送失败，已重试" ++ toString p.max_retry ++ "次", ""⟩, l.length,
       List.replicate (l.length - 1) p.retry_delay)
  | [], p, oracle, _ => by simp [pushAttempts]
  | a :: rest, p, oracle, h => by
    have ih := pushAttempts_all_retryable rest p oracle
      (fun b hb => h b (List.mem_cons_of_mem _ hb))
    have ha := h a (List.mem_cons_self _ _)
    rcases ha with h1 | h1 | ⟨c, h1, hc⟩
    · simp [pushAttempts, h1, ih]
      cases rest <;> simp [List.replicate_succ]
    · simp [pushAttempts, h1, ih]
      cases rest <;> simp [List.replicate_succ]
    · simp [pushAttempts, h1, ih, hc]
      cases rest <;> simp [List.replicate_succ]

/-- C6: three retryable failures give exactly 3 attempts with 10-unit
sleeps between them and the retry-count failure message; an HTTP 400 on the
first attempt fails immediately. -/
theorem push_retry_bound (oracle oracle2 : Nat → AttemptOutcome)
    (hall : ∀ i, i < 3 → retryable (oracle i))
    (h400 : oracle2 0 = .httpError 400) (title content : String) :
    (((ServerChanPusher.init none none).push oracle title content).result =
        ⟨false, "推送失败，已重试3次", ""⟩ ∧
      ((ServerChanPusher.init none none).push oracle title content).calls = 3 ∧
      ((ServerChanPusher.init none none).push oracle title content).sleeps = [10, 10]) ∧
    (((ServerChanPusher.init none none).push oracle2 title content).result =
        ⟨false, "推送参数错误", ""⟩ ∧
      ((ServerChanPusher.init none none).push oracle2 title content).calls = 1 ∧
      ((ServerChanPusher.init none none).push oracle2 title content).sleeps = []) := by
  have hl := pushAttempts_all_retryable [0, 1, 2] (ServerChanPusher.init none none) oracle
    (by
      intro a ha
      simp only [List.mem_cons, List.not_mem_nil, or_false] at ha
      rcases ha with rfl | rfl | rfl
      · exact hall 0 (by norm_num)
      · exact hall 1 (by norm_num)
      · exact hall 2 (by norm_num))
  have hp : (ServerChanPusher.init none none).push oracle title content =
      { result := ⟨false, "推送失败，已重试3次", ""⟩, calls := 3, sleeps := [10, 10]
        request := (ServerChanPusher.init none none).buildRequest title content } := by
    simp only [ServerChanPusher.push]
    rw [if_neg (by decide)]
    rw [show List.range (ServerChanPusher.init none none).max_retry = [0, 1, 2] from rfl, hl]
    simp only [PushTrace.mk.injEq]
    exact ⟨by decide, by decide, by decide, trivial⟩
  have hp2 : (ServerChanPusher.init none none).push oracle2 title content =
      { result := ⟨false, "推送参数错误", ""⟩, calls := 1, sleeps := []
        request := (ServerChanPusher.init none none).buildRequest title content } := by
    simp only [ServerChanPusher.push]
    rw [if_neg (by decide)]
    rw [show List.range (ServerChanPusher.init none none).max_retry = [0, 1, 2] from rfl]
    simp [pushAttempts, h400]
  exact ⟨⟨by rw [hp], by rw [hp], by rw [hp]⟩, ⟨by rw [hp2], by rw [hp2], by rw [hp2]⟩⟩

/-- Witness for C6 at the all-`URLError` oracle and the constant 400 oracle. -/
theorem push_retry_bound_witness :
    (((ServerChanPusher.init none none).push (fun _ => .urlError) "t" "c").result =
        ⟨false, "推送失败，已重试3次", ""⟩ ∧
      ((ServerChanPusher.init none none).push (fun _ => .urlError) "t" "c").calls = 3 ∧
      ((ServerChanPusher.init none none).push (fun _ => .urlError) "t" "c").sleeps = [10, 10]) ∧
    (((ServerChanPusher.init none none).push (fun _ => .httpError 400) "t" "c").result =
        ⟨false, "推送参数错误", ""⟩ ∧
      ((ServerChanPusher.init none none).push (fun _ => .httpError 400) "t" "c").calls = 1 ∧
      ((ServerChanPusher.init none none).push (fun _ => .httpError 400) "t" "c").sleeps = []) :=
  push_retry_bound (fun _ => .urlError) (fun _ => .httpError 400)
    (fun _ _ => Or.inl rfl) rfl "t" "c"

/-- C10: the constructed pusher, the request it builds, and the full
observable behaviour of `push` are independent of the `sendkey` argument,
which is ignored in favour of the hardcoded constant. -/
theorem push_independent_of_sendkey (k1 k2 url : Option String) :
    ServerChanPusher.init k1 url = ServerChanPusher.init k2 url ∧
    (ServerChanPusher.init k1 url).sendkey = "SCT154542THtyS9cBPpp5PuiHwzGaIXeR8" ∧
    ∀ (oracle : Nat → AttemptOutcome) (title content : String),
      (ServerChanPusher.init k1 url).buildRequest title content =
        (ServerChanPusher.init k2 url).buildRequest title content ∧
      (ServerChanPusher.init k1 url).push oracle title content =
        (ServerChanPusher.init k2 url).push oracle title content :=
  ⟨rfl, rfl, fun _ _ _ => ⟨rfl, rfl⟩⟩

/-- C4 (divergence): a pusher constructed with the empty secret key does
not hold the empty key, and its `push` performs webhook calls (three, for
an always-failing transport) instead of failing immediately with zero
network requests. -/
theorem push_empty_key_still_calls :
    (ServerChanPusher.init (some "") none).sendkey ≠ "" ∧
    ((ServerChanPusher.init (some "") none).push (fun _ => .urlError) "t" "c").calls = 3 ∧
    ((ServerChanPusher.init (some "") none).push (fun _ => .urlError) "t" "c").result.success
      = false := by
  refine ⟨by decide, ?_, ?_⟩ <;> decide

/-! ## Fetcher (`src/core/outlook_email_fetcher.py`, class `OutlookEmailFetcher`) -/

/-- One Outlook `MailItem` as the fetch loop reads it: `ReceivedTime` may
be absent (`None`); the remaining fields are what the converter extracts. -/
structure MailItem where
  entryId : String
  receivedTime : Option Int
  subject : String
  senderName : String
  senderEmail : String
  recipients : List String
  body : String
  deriving Repr, DecidableEq

/-- Sort key used by `items.Sort("[ReceivedTime]", True)`.  The default for
a missing timestamp is irrelevant to the claims, which assume every item
carries one. -/
def mailKey (m : MailItem) : Int := m.receivedTime.getD 0

/-- Descending receipt-time order (newest first), the order produced by
`items.Sort("[ReceivedTime]", True)`. -/
def mailDesc (a b : MailItem) : Prop := mailKey b ≤ mailKey a

instance : DecidableRel mailDesc := fun a b =>
  inferInstanceAs (Decidable (mailKey b ≤ mailKey a))

instance : IsTotal MailItem mailDesc :=
  ⟨fun a b => le_total (mailKey b) (mailKey a)⟩

instance : IsTrans MailItem mailDesc :=
  ⟨fun _ _ _ h1 h2 => le_trans h2 h1⟩

/-- `_extract_sender`: display name first, then address, then a literal
marker. -/
def extractSender (m : MailItem) : String :=
  if m.senderName ≠ "" then m.senderName
  else if m.senderEmail ≠ "" then m.senderEmail
  else "Unknown Sender"

/-- `_convert_to_email_data`: builds the `EmailData` record; the timestamp
falls back to `datetime.now()` when the item has none. -/
def convertToEmailData (now : Int) (m : MailItem) : EmailData :=
  { uid := m.entryId
    subject := m.subject
    sender := extractSender m
    recipients := m.recipients
    content := m.body
    raw_content := m.body
    timestamp := m.receivedTime.getD now
    message_id := m.entryId }

/-- The scan loop of `fetch_emails` over the (already sorted) items:
skip items with no timestamp, stop (`break`) at the first item older than
the cutoff, skip ids already in `processed_ids`, otherwise append the
converted record, remember its id in `latest_entry_id` and add it to
`processed_ids`. -/
def fetchLoop (cutoff now : Int) :
    List MailItem → List String → String → List EmailData × String
  | [], _, latest => ([], latest)
  | m :: rest, processed, latest =>
    match m.receivedTime with
    | none => fetchLoop cutoff now rest processed latest
    | some t =>
      if cutoff ≤ t then
        if m.entryId ∈ processed then
          fetchLoop cutoff now rest processed latest
        else
          let next := fetchLoop cutoff now rest (m.entryId :: processed) m.entryId
          (convertToEmailData now m :: next.1, next.2)
      else
        ([], latest)

/-- `OutlookEmailFetcher.fetch_emails(last_days)` on a connected fetcher
whose in-memory `processed_ids` set is `processed`: sorts the inbox by
descending receipt time, then scans with cutoff `now - last_days` days. -/
def fetchEmails (now : Int) (lastDays : Nat) (inbox : List MailItem)
    (processed : List String) : List EmailData × String :=
  fetchLoop (now - lastDays) now (List.insertionSort mailDesc inbox) processed ""

/-- The loop on timestamped, not-yet-seen, duplicate-free items returns the
converted prefix of items at or after the cutoff (`takeWhile`). -/
theorem fetchLoop_fst (cutoff now : Int) :
    ∀ (items : List MailItem) (processed : List String) (latest : String),
    (∀ m ∈ items, m.receivedTime ≠ none) →
    (∀ m ∈ items, m.entryId ∉ processed) →
    (items.map MailItem.entryId).Nodup →
    (fetchLoop cutoff now items processed latest).1 =
      (items.takeWhile fun m => decide (cutoff ≤ mailKey m)).map (convertToEmailData now)
  | [], _, _, _, _, _ => rfl
  | m :: rest, processed, latest, hts, hproc, hnd => by
    obtain ⟨t, ht⟩ : ∃ t, m.receivedTime = some t :=
      Option.ne_none_iff_exists'.mp (hts m (List.mem_cons_self _ _))
    have hkey : mailKey m = t := by simp [mailKey, ht]
    have hnd' : (∀ x ∈ rest, ¬x.entryId = m.entryId) ∧
        (rest.map MailItem.entryId).Nodup := by simpa using hnd
    by_cases hcut : cutoff ≤ t
    · have hm : m.entryId ∉ processed := hproc m (List.mem_cons_self _ _)
      have ih := fetchLoop_fst cutoff now rest (m.entryId :: processed) m.entryId
        (fun x hx => hts x (List.mem_cons_of_mem _ hx))
        (fun x hx => by
          simp only [List.mem_cons]
          rintro (hx1 | hx2)
          · exact hnd'.1 x hx hx1
          · exact hproc x (List.mem_cons_of_mem _ hx) hx2)
        hnd'.2
      simp [fetchLoop, ht, hcut, hm, ih, List.takeWhile_cons, hkey]
    · simp [fetchLoop, ht, hcut, List.takeWhile_cons, hkey]

/-- On a list sorted newest-first, stopping at the first item older than
the cutoff scans exactly the items at or after the cutoff. -/
theorem takeWhile_eq_filter_of_sorted (cutoff : Int) :
    ∀ l : List MailItem, l.Sorted mailDesc →
    (l.takeWhile fun m => decide (cutoff ≤ mailKey m)) =
      l.filter fun m => decide (cutoff ≤ mailKey m)
  | [], _ => rfl
  | m :: rest, hs => by
    by_cases h : cutoff ≤ mailKey m
    · simp [List.takeWhile_cons, List.filter_cons, h,
        takeWhile_eq_filter_of_sorted cutoff rest hs.of_cons]
    · have hall : ∀ x ∈ rest, ¬ cutoff ≤ mailKey x := fun x hx hcx =>
        h (le_trans hcx (List.rel_of_sorted_cons hs x hx))
      have hcond : decide (cutoff ≤ mailKey m) = false := by simpa using h
      simp only [List.takeWhile_cons, List.filter_cons, hcond, Bool.false_eq_true, if_false]
      rw [eq_comm, List.filter_eq_nil_iff]
      intro a ha
      simp [hall a ha]

/-- `List.Pairwise` transfer along an implication that may use membership. -/
theorem pairwise_imp_mem {α : Type} {l : List α} {R S : α → α → Prop}
    (h : ∀ a ∈ l, ∀ b ∈ l, R a b → S a b) (hp : l.Pairwise R) : l.Pairwise S := by
  induction hp with
  | nil => exact List.Pairwise.nil
  | cons hd _ ih =>
    refine List.Pairwise.cons ?_ (ih ?_)
    · intro b hb
      exact h _ (List.mem_cons_self _ _) b (List.mem_cons_of_mem _ hb) (hd b hb)
    · intro a ha b hb hr
      exact h a (List.mem_cons_of_mem _ ha) b (List.mem_cons_of_mem _ hb) hr

/-- C1: on a fresh fetcher, for a positive window `W` and an inbox whose
items all carry timestamps (with per-fetch-unique ids), `fetch_emails`
returns exactly the items received at or after `now - W` days, converted,
in descending receipt-time order, and none older than the cutoff. -/
theorem fetch_emails_time_window (now : Int) (W : Nat) (inbox : List MailItem)
    (_hW : 0 < W)
    (hts : ∀ m ∈ inbox, m.receivedTime ≠ none)
    (hids : (inbox.map MailItem.entryId).Nodup) :
    (fetchEmails now W inbox []).1 =
      ((List.insertionSort mailDesc inbox).filter
        fun m => decide (now - W ≤ mailKey m)).map (convertToEmailData now) ∧
    ((fetchEmails now W inbox []).1.map EmailData.uid).Perm
      ((inbox.filter fun m => decide (now - W ≤ mailKey m)).map MailItem.entryId) ∧
    (fetchEmails now W inbox []).1.Pairwise (fun a b => b.timestamp ≤ a.timestamp) ∧
    ∀ e ∈ (fetchEmails now W inbox []).1, now - W ≤ e.timestamp := by
  have hperm : (List.insertionSort mailDesc inbox).Perm inbox :=
    List.perm_insertionSort _ _
  have hsorted : (List.insertionSort mailDesc inbox).Sorted mailDesc :=
    List.sorted_insertionSort _ _
  have hts_s : ∀ m ∈ List.insertionSort mailDesc inbox, m.receivedTime ≠ none :=
    fun m hm => hts m (hperm.mem_iff.mp hm)
  have hids_s : ((List.insertionSort mailDesc inbox).map MailItem.entryId).Nodup :=
    (hperm.map MailItem.entryId).nodup_iff.mpr hids
  have h1 : (fetchEmails now W inbox []).1 =
      ((List.insertionSort mailDesc inbox).filter
        fun m => decide (now - W ≤ mailKey m)).map (convertToEmailData now) := by
    rw [show (fetchEmails now W inbox []) =
        fetchLoop (now - W) now (List.insertionSort mailDesc inbox) [] "" from rfl,
      fetchLoop_fst (now - W) now _ [] "" hts_s (fun m _ => List.not_mem_nil _) hids_s,
      takeWhile_eq_filter_of_sorted _ _ hsorted]
  have hmem_ts : ∀ m ∈ (List.insertionSort mailDesc inbox).filter
      (fun m => decide (now - W ≤ mailKey m)),
      (convertToEmailData now m).timestamp = mailKey m ∧ now - W ≤ mailKey m := by
    intro m hm
    have hm' := List.mem_filter.mp hm
    obtain ⟨t, ht⟩ : ∃ t, m.receivedTime = some t :=
      Option.ne_none_iff_exists'.mp (hts_s m hm'.1)
    refine ⟨?_, by simpa using hm'.2⟩
    simp [convertToEmailData, mailKey, ht]
  refine ⟨h1, ?_, ?_, ?_⟩
  · rw [h1, List.map_map]
    have : (EmailData.uid ∘ convertToEmailData now) = MailItem.entryId := rfl
    rw [this]
    exact (hperm.filter _).map _
  · rw [h1]
    rw [List.pairwise_map]
    refine pairwise_imp_mem (R := mailDesc) ?_ (hsorted.filter _)
    intro a ha b hb hr
    rw [(hmem_ts a ha).1, (hmem_ts b hb).1]
    exact hr
  · rw [h1]
    intro e he
    obtain ⟨m, hm, rfl⟩ := List.mem_map.mp he
    rw [(hmem_ts m hm).1]
    exact (hmem_ts m hm).2

/-- Witness inbox for the fetcher theorems: a newer and an older matching
item plus one outside the window. -/
def itemA : MailItem :=
  { entryId := "A", receivedTime := some 10, subject := "sa"
    senderName := "na", senderEmail := "", recipients := [], body := "ba" }

def itemB : MailItem :=
  { entryId := "B", receivedTime := some 9, subject := "sb"
    senderName := "nb", senderEmail := "", recipients := [], body := "bb" }

def itemOld : MailItem :=
  { entryId := "C", receivedTime := some 1, subject := "sc"
    senderName := "nc", senderEmail := "", recipients := [], body := "bc" }

/-- Witness for C1 at a concrete three-item inbox, window 7 days. -/
theorem fetch_emails_time_window_witness :
    (0 < 7 ∧ (∀ m ∈ [itemA, itemB, itemOld], m.receivedTime ≠ none) ∧
      ([itemA, itemB, itemOld].map MailItem.entryId).Nodup) ∧
    ((fetchEmails 10 7 [itemA, itemB, itemOld] []).1 =
      ((List.insertionSort mailDesc [itemA, itemB, itemOld]).filter
        fun m => decide ((10 : Int) - (7 : Nat) ≤ mailKey m)).map (convertToEmailData 10) ∧
    ((fetchEmails 10 7 [itemA, itemB, itemOld] []).1.map EmailData.uid).Perm
      (([itemA, itemB, itemOld].filter
        fun m => decide ((10 : Int) - (7 : Nat) ≤ mailKey m)).map MailItem.entryId) ∧
    (fetchEmails 10 7 [itemA, itemB, itemOld] []).1.Pairwise
      (fun a b => b.timestamp ≤ a.timestamp) ∧
    ∀ e ∈ (fetchEmails 10 7 [itemA, itemB, itemOld] []).1,
      (10 : Int) - (7 : Nat) ≤ e.timestamp) :=
  ⟨⟨by decide, by decide, by decide⟩,
    fetch_emails_time_window 10 7 [itemA, itemB, itemOld] (by decide) (by decide) (by decide)⟩

/-- C2 (divergence): walking newest→oldest while overwriting
`latest_entry_id` on every append leaves the id of the **oldest** matched
item, not the most recent one: here the returned pair is
`([A(t=10), B(t=9)], "B")` although the newest returned record is `A`. -/
theorem fetch_emails_latest_id_is_oldest :
    (fetchEmails 10 7 [itemA, itemB] []).2 = "B" ∧
    ((fetchEmails 10 7 [itemA, itemB] []).1.map EmailData.uid) = ["A", "B"] ∧
    ((fetchEmails 10 7 [itemA, itemB] []).1.map EmailData.timestamp) = [10, 9] ∧
    ("B" : String) ≠ "A" := by
  refine ⟨?_, ?_, ?_, ?_⟩ <;> decide

/-! ## Parser (`src/core/email_parser.py`, class `EmailParser`)

The remote chat-completion call is an oracle of type
`Except String (Except String String)`: the outer `Except` is the
`client.chat.completions.create(...)` call itself (error = the call
raised: timeout, auth failure, ...), the inner one is the extraction of
`choices[0].message.content` from the response object (error = malformed
response).  `pyStrip` stands for Python `str.strip()`. -/

/-- Python `s.split(':', 1)[0]`. -/
def beforeFirstColon (s : String) : String :=
  ⟨s.data.takeWhile (fun c => c ≠ ':')⟩

/-- Python `s.split(':', 1)[1]`; all call sites guard on the colon being
present, so the no-colon fallback is never reached. -/
def afterFirstColon (s : String) : String :=
  match s.data.dropWhile (fun c => c ≠ ':') with
  | [] => ""
  | _ :: rest => ⟨rest⟩

/-- Python `int(s)` as an `Option`: optional sign followed by decimal
digits after stripping whitespace (CPython additionally accepts
underscores between digits and non-ASCII decimal digits; no claim depends
on those inputs, which the guarded call sites simply skip). -/
def pyInt? (s : String) : Option Int :=
  let t := pyStrip s
  let core := if pyStartsWith t "-" || pyStartsWith t "+" then (⟨t.data.drop 1⟩ : String) else t
  if core.data.length > 0 ∧ core.data.all Char.isDigit then
    some ((if pyStartsWith t "-" then (-1 : Int) else 1) *
      (core.data.foldl (fun acc c => acc * 10 + (c.toNat - 48)) (0 : Nat) : Nat))
  else
    none

/-- Python-dict assignment `d[k] = v` on an insertion-ordered int-keyed
dict: updating an existing key keeps its position, a new key is appended. -/
def dictSet (d : List (Nat × String)) (k : Nat) (v : String) : List (Nat × String) :=
  if d.any (fun p => p.1 = k) then
    d.map (fun p => if p.1 = k then (k, v) else p)
  else
    d ++ [(k, v)]

/-- Python-dict lookup `d.get(k)` / `k in d`. -/
def dictGet? (d : List (Nat × String)) (k : Nat) : Option String :=
  (d.find? (fun p => p.1 = k)).map (fun p => p.2)

/-- Python `d.values()` in insertion order. -/
def dictValues (d : List (Nat × String)) : List String :=
  d.map (fun p => p.2)

/-- `[p.strip() for p in s.split('|') if p.strip()]`. -/
def splitPipeStrip (s : String) : List String :=
  ((pySplitChar s '|').map pyStrip).filter (fun p => p ≠ "")

/-- The mutable `parsed_data` dict of `_parse_structured_response`; every
key is initialized, so the `.get(key, default)` fallbacks in
`_parse_response` never fire. -/
structure StructData where
  summary : String
  key_points : List String
  category : String
  content : String
  attachments : List String
  deriving Repr, DecidableEq

/-- One line of `_parse_structured_response`'s loop (lines are not
stripped here, unlike the batch parser). -/
def structStep (d : StructData) (line : String) : StructData :=
  if pyStartsWith line "摘要:" || pyStartsWith line "Summary:" then
    { d with summary := pyStrip (afterFirstColon line) }
  else if pyStartsWith line "关键点:" || pyStartsWith line "Key Points:" then
    { d with key_points := splitPipeStrip (pyStrip (afterFirstColon line)) }
  else if pyStartsWith line "类别:" || pyStartsWith line "Category:" then
    { d with category := pyStrip (afterFirstColon line) }
  else if pyStartsWith line "附件:" || pyStartsWith line "Attachments:" then
    { d with attachments := splitPipeStrip (pyStrip (afterFirstColon line)) }
  else if pyStartsWith line "内容:" || pyStartsWith line "Content:" then
    { d with content := pyStrip (afterFirstColon line) }
  else d

/-- `EmailParser._parse_structured_response`. -/
def parseStructuredResponse (response : String) : StructData :=
  (pySplitChar response '\n').foldl structStep ⟨"", [], "general", "", []⟩

/-- `EmailParser._parse_response`: everything is inside `try`; a malformed
response (failed content extraction) is caught and becomes
`ParseResult('解析失败', [], email_data.content)` (with the dataclass
defaults `attachments=[]`, `category='general'`). -/
def parseResponseSingle (e : EmailData) (resp : Except String String) : ParseResult :=
  match resp with
  | .error _ =>
    { summary := "解析失败", key_points := [], content := e.content
      attachments := [], category := "general" }
  | .ok text =>
    let d := parseStructuredResponse text
    { summary := d.summary, key_points := d.key_points, content := d.content
      attachments := d.attachments, category := d.category }

/-- `EmailParser.parse_email`: the `self._call_api(...)` line sits outside
any try/except, so an exception raised by the remote call propagates out
of `parse_email`; only `_parse_response` has its own handler.  The second
component counts remote calls. -/
def parseEmail (call : Except String (Except String String)) (e : EmailData) :
    Except String ParseResult × Nat :=
  match call with
  | .error err => (.error err, 1)
  | .ok resp => (.ok (parseResponseSingle e resp), 1)

/-- The `current_section` marker of `_parse_batch_response`. -/
inductive BatchSection where
  | important
  | summary
  | summaries
  deriving Repr, DecidableEq

/-- Loop state of `_parse_batch_response`. -/
structure BatchState where
  currentSection : Option BatchSection
  hasImportant : Bool
  overallSummary : String
  emailSummaries : List (Nat × String)
  deriving Repr, DecidableEq

/-- One iteration of `_parse_batch_response`'s line loop (`n` is
`len(email_list)`). -/
def batchStep (n : Nat) (st : BatchState) (rawLine : String) : BatchState :=
  let line := pyStrip rawLine
  if line = "" then st
  else if pyStartsWith line "重要邮件:" || pyStartsWith line "Important Emails:" then
    { st with currentSection := some .important
              hasImportant :=
                decide (pyLower (pyStrip (afterFirstColon line)) ∈
                  (["是", "yes", "true"] : List String)) }
  else if pyStartsWith line "总体总结:" || pyStartsWith line "Overall Summary:" then
    { st with currentSection := some .summary
              overallSummary := pyStrip (afterFirstColon line) }
  else if pyStartsWith line "邮件总结:" || pyStartsWith line "Email Summaries:" then
    { st with currentSection := some .summaries }
  else if st.currentSection = some .summaries ∧
      (pyStartsWith line "邮件" || pyStartsWith line "Email") ∧ pyContainsChar line ':' then
    match pyInt? (pyStrip (pyReplace (pyReplace (beforeFirstColon line) "邮件" "") "Email" "")) with
    | some z =>
      if 1 ≤ z ∧ z ≤ (n : Int) then
        { st with emailSummaries :=
            dictSet st.emailSummaries (z - 1).toNat (pySlice (pyStrip (afterFirstColon line)) 80) }
      else st
    | none => st
  else st

/-- The per-email default summary: the subject cut to 50 characters, with
an ellipsis when it was longer. -/
def defaultSummary (e : EmailData) : String :=
  pySlice e.subject 50 ++ (if 50 < e.subject.length then "..." else "")

/-- The fill loop `for i in range(len(email_list)): if i not in
email_summaries: ...`, iterating over the enumerated email list. -/
def fillDefaults (d : List (Nat × String)) : List (Nat × EmailData) → List (Nat × String)
  | [] => d
  | (i, e) :: rest =>
    fillDefaults (if (dictGet? d i).isSome then d else dictSet d i (defaultSummary e)) rest

/-- `EmailParser._parse_batch_response`.  The surrounding try/except never
fires: the body raises no exception (the only risky spot, `int(...)`, has
its own `ValueError` handler, modeled inside `pyInt?`). -/
def parseBatchResponse (response : String) (emails : List EmailData) : EmailSummaryResult :=
  let st := (pySplitChar (pyStrip response) '\n').foldl (batchStep emails.length)
    ⟨none, false, "", []⟩
  let summaries := fillDefaults st.emailSummaries emails.enum
  { has_important_emails := st.hasImportant
    overall_summary := if st.overallSummary = "" then "暂无总结" else st.overallSummary
    email_summaries := summaries
    push_title := if st.hasImportant then "📧 重要邮件" else "📧 本周邮件总结"
    push_content :=
      "重要邮件: " ++ (if st.hasImportant then "是" else "否") ++ "\n\n" ++
        st.overallSummary ++ "\n\n" ++ "邮件总结:\n" ++
        pyJoin "\n" ((dictValues summaries).map (fun s => "• " ++ s)) }

/-- The fixed result `parse_emails_batch` returns for an empty batch. -/
def emptyBatchResult : EmailSummaryResult :=
  { has_important_emails := false, overall_summary := "本周无新邮件"
    email_summaries := [], push_title := "本周邮件总结", push_content := "本周无新邮件" }

/-- The sentinel result built in `parse_emails_batch`'s except-handler. -/
def batchFailureResult (err : String) (emails : List EmailData) : EmailSummaryResult :=
  { has_important_emails := false
    overall_summary := "解析失败: " ++ err
    email_summaries := (List.range emails.length).map (fun i => (i, "解析失败: " ++ err))
    push_title := "邮件解析失败"
    push_content := "无法解析本周邮件: " ++ err }

/-- `EmailParser.parse_emails_batch`: empty input short-circuits before the
remote call; otherwise the call and the content extraction both happen
inside `try`, and any exception becomes `batchFailureResult`.  The second
component counts remote calls. -/
def parseEmailsBatch (call : Except String (Except String String))
    (emails : List EmailData) : Except String EmailSummaryResult × Nat :=
  if emails.isEmpty then
    (.ok emptyBatchResult, 0)
  else
    match call with
    | .error err => (.ok (batchFailureResult err emails), 1)
    | .ok resp =>
      match resp with
      | .error err => (.ok (batchFailureResult err emails), 1)
      | .ok text => (.ok (parseBatchResponse text emails), 1)

/-- `parse_emails_batch` always returns a well-formed result, never an
exception: every path of its body is covered by the empty-input
short-circuit or the try/except. -/
theorem parseEmailsBatch_ok (call : Except String (Except String String))
    (emails : List EmailData) : ∃ r, (parseEmailsBatch call emails).1 = .ok r := by
  by_cases h : emails.isEmpty = true
  · exact ⟨emptyBatchResult, by simp [parseEmailsBatch, h]⟩
  · rcases call with err | resp
    · exact ⟨batchFailureResult err emails, by simp [parseEmailsBatch, h]⟩
    · rcases resp with err | text
      · exact ⟨batchFailureResult err emails, by simp [parseEmailsBatch, h]⟩
      · exact ⟨parseBatchResponse text emails, by simp [parseEmailsBatch, h]⟩

/-! ## Controller (`src/core/main_controller.py`, class `PureOutlookController`) -/

/-- `PureOutlookController._handle_emails_batch`: calls
`parse_emails_batch`, then evaluates `batch_result.split('\n')[0]` — but
`batch_result` is an `EmailSummaryResult` dataclass, whose attribute set
(`EmailSummaryResult.attrNames`) has no `split`, so the attribute lookup
raises `AttributeError` before `self.pusher.push` is ever reached.  The
second component is the log of `pusher.push(title, content)` invocations. -/
def handleEmailsBatch (call : Except String (Except String String))
    (emails : List EmailData) : Except PyExc Bool × List (String × String) :=
  match (parseEmailsBatch call emails).1 with
  | .error err => (.error (.other err), [])
  | .ok _batchResult =>
    if EmailSummaryResult.hasAttr "split" then
      (.ok false, [])
    else
      (.error (.attributeError "EmailSummaryResult object has no attribute split"), [])

/-- A concrete mail record used by witnesses and counterexamples. -/
def sampleEmail : EmailData :=
  { uid := "u1", subject := "s", sender := "x", recipients := [], content := "c"
    raw_content := "c", timestamp := 5, message_id := "u1" }

/-- C3 (divergence): for every non-empty batch and every call outcome,
`_handle_emails_batch` raises `AttributeError` on
`batch_result.split('\n')` and the pusher is never invoked (empty push
log), instead of pushing the summary. -/
theorem handle_emails_batch_attribute_error (call : Except String (Except String String))
    (emails : List EmailData) (_h : emails ≠ []) :
    handleEmailsBatch call emails =
      (.error (.attributeError "EmailSummaryResult object has no attribute split"), []) := by
  obtain ⟨r, hr⟩ := parseEmailsBatch_ok call emails
  have hs : EmailSummaryResult.hasAttr "split" = false := by decide
  simp [handleEmailsBatch, hr, hs]

/-- Witness for C3 at a concrete one-email batch. -/
theorem handle_emails_batch_attribute_error_witness :
    ([sampleEmail] ≠ ([] : List EmailData)) ∧
    handleEmailsBatch (.ok (.ok "总体总结: x")) [sampleEmail] =
      (.error (.attributeError "EmailSummaryResult object has no attribute split"), []) :=
  ⟨by decide, handle_emails_batch_attribute_error _ _ (by decide)⟩

/-- C7: the empty batch short-circuits to the fixed no-mail result with
zero remote summarization calls, whatever the call oracle would do. -/
theorem parse_emails_batch_empty (call : Except String (Except String String)) :
    parseEmailsBatch call [] =
      (.ok { has_important_emails := false, overall_summary := "本周无新邮件"
             email_summaries := [], push_title := "本周邮件总结"
             push_content := "本周无新邮件" }, 0) := rfl

/-- C8 (amended): `parse_emails_batch` never lets an exception escape (all
call/extraction failures become a sentinel result), and `parse_email`
catches failures of response parsing; only an exception raised by the
remote call itself escapes `parse_email`. -/
theorem parser_exception_policy (call : Except String (Except String String))
    (emails : List EmailData) (resp : Except String String) (e : EmailData) :
    (∃ r, (parseEmailsBatch call emails).1 = .ok r) ∧
    parseEmail (.ok resp) e = (.ok (parseResponseSingle e resp), 1) :=
  ⟨parseEmailsBatch_ok call emails, rfl⟩

/-- C8 (counterexample): a remote-call exception (`timeout`) propagates
out of `parse_email` — its result is the raised exception, not a
well-formed `ParseResult`. -/
theorem parse_email_propagates_call_exception :
    parseEmail (.error "timeout") sampleEmail = (.error "timeout", 1) ∧
    ¬ ∃ r, (parseEmail (.error "timeout") sampleEmail).1 = .ok r := by
  refine ⟨rfl, ?_⟩
  rintro ⟨r, hr⟩
  simp [parseEmail] at hr

/-! ## C5: the batch parser is prefix-line based, not delimiter based -/

/-- A stripped response line that sets a section in
`_parse_batch_response` (one of the six recognized header prefixes). -/
def recognizedHeader (line : String) : Bool :=
  pyStartsWith line "重要邮件:" || pyStartsWith line "Important Emails:" ||
  pyStartsWith line "总体总结:" || pyStartsWith line "Overall Summary:" ||
  pyStartsWith line "邮件总结:" || pyStartsWith line "Email Summaries:"

/-- A line with no recognized header leaves the state unchanged while no
section is open (the per-email branch needs the `邮件总结:` section). -/
theorem batchStep_no_header (n : Nat) (st : BatchState) (line : String)
    (hsec : st.currentSection = none) (h : recognizedHeader (pyStrip line) = false) :
    batchStep n st line = st := by
  simp only [recognizedHeader, Bool.or_eq_false_iff] at h
  unfold batchStep
  by_cases he : pyStrip line = ""
  · simp [he]
  · simp [he, h.1.1.1.1.1, h.1.1.1.1.2, h.1.1.1.2, h.1.1.2, h.1.2, h.2, hsec]

/-- Folding the line loop over header-free lines keeps the initial state. -/
theorem foldl_batchStep_no_header (n : Nat) :
    ∀ (lines : List String) (st : BatchState), st.currentSection = none →
    (∀ l ∈ lines, recognizedHeader (pyStrip l) = false) →
    lines.foldl (batchStep n) st = st
  | [], _, _, _ => rfl
  | l :: rest, st, hsec, h => by
    rw [List.foldl_cons, batchStep_no_header n st l hsec (h l (List.mem_cons_self _ _))]
    exact foldl_batchStep_no_header n rest st hsec
      (fun x hx => h x (List.mem_cons_of_mem _ hx))

/-- C5 (amended): extraction is prefix-line based; a response none of whose
stripped lines carries a recognized header prefix yields the fixed default
result — overall summary `暂无总结` and subject-derived per-email
summaries — and no `no delimited block found` sentinel exists. -/
theorem batch_parse_default_when_no_markers (response : String) (emails : List EmailData)
    (h : ∀ line ∈ pySplitChar (pyStrip response) '\n', recognizedHeader (pyStrip line) = false) :
    (parseBatchResponse response emails).has_important_emails = false ∧
    (parseBatchResponse response emails).overall_summary = "暂无总结" ∧
    (parseBatchResponse response emails).email_summaries = fillDefaults [] emails.enum ∧
    (parseBatchResponse response emails).push_title = "📧 本周邮件总结" ∧
    (parseBatchResponse response emails).overall_summary ≠ "no delimited block found" := by
  have hf := foldl_batchStep_no_header emails.length (pySplitChar (pyStrip response) '\n')
    ⟨none, false, "", []⟩ rfl h
  have heq : parseBatchResponse response emails =
      { has_important_emails := false
        overall_summary := "暂无总结"
        email_summaries := fillDefaults [] emails.enum
        push_title := "📧 本周邮件总结"
        push_content := "重要邮件: " ++ "否" ++ "\n\n" ++ "" ++ "\n\n" ++ "邮件总结:\n" ++
          pyJoin "\n"
            ((dictValues (fillDefaults [] emails.enum)).map (fun s => "• " ++ s)) } := by
    unfold parseBatchResponse
    rw [hf]
    rfl
  refine ⟨by rw [heq], by rw [heq], by rw [heq], by rw [heq], ?_⟩
  rw [heq]
  show ("暂无总结" : String) ≠ "no delimited block found"
  decide

/-- Witness for C5's amended statement at the marker-free response `x`. -/
theorem batch_parse_default_when_no_markers_witness :
    (∀ line ∈ pySplitChar (pyStrip "x") '\n', recognizedHeader (pyStrip line) = false) ∧
    ((parseBatchResponse "x" [sampleEmail]).has_important_emails = false ∧
     (parseBatchResponse "x" [sampleEmail]).overall_summary = "暂无总结" ∧
     (parseBatchResponse "x" [sampleEmail]).email_summaries =
       fillDefaults [] [sampleEmail].enum ∧
     (parseBatchResponse "x" [sampleEmail]).push_title = "📧 本周邮件总结" ∧
     (parseBatchResponse "x" [sampleEmail]).overall_summary ≠ "no delimited block found") :=
  ⟨by decide, batch_parse_default_when_no_markers "x" [sampleEmail] (by decide)⟩

/-- C5 (counterexample): the response `x` contains no substring enclosed
between two occurrences of any delimiter character, so per the claim the
result would be the fixed sentinel; the code instead returns the prefix
parser's default result, and the sentinel appears in no field. -/
theorem no_delimited_sentinel_counterexample :
    (parseBatchResponse "x" [sampleEmail]).overall_summary = "暂无总结" ∧
    (parseBatchResponse "x" [sampleEmail]).email_summaries = [(0, "s")] ∧
    (parseBatchResponse "x" [sampleEmail]).overall_summary ≠ "no delimited block found" ∧
    (parseBatchResponse "x" [sampleEmail]).push_content ≠ "no delimited block found" ∧
    (parseBatchResponse "x" [sampleEmail]).push_title ≠ "no delimited block found" := by
  refine ⟨?_, ?_, ?_, ?_, ?_⟩ <;> decide

/-! ## C9: the batch summaries cover every index with 80-character entries -/

theorem string_length_append (s t : String) : (s ++ t).length = s.length + t.length := by
  show (s.data ++ t.data).length = s.data.length + t.data.length
  exact List.length_append _ _

theorem defaultSummary_length_le (e : EmailData) : (defaultSummary e).length ≤ 80 := by
  unfold defaultSummary
  rw [string_length_append]
  have h1 := pySlice_length_le e.subject 50
  by_cases h : 50 < e.subject.length
  · rw [if_pos h]
    have h3 : ("..." : String).length = 3 := rfl
    omega
  · rw [if_neg h]
    have h0 : ("" : String).length = 0 := rfl
    omega

/-- Head equation for the dict lookup. -/
theorem dictGet?_cons (q : Nat × String) (tail : List (Nat × String)) (i : Nat) :
    dictGet? (q :: tail) i = if q.1 = i then some q.2 else dictGet? tail i := by
  unfold dictGet?
  by_cases hq : q.1 = i
  · simp [List.find?, hq]
  · simp [List.find?, hq]

/-- Looking up a key other than the updated one is unaffected by the
in-place update branch of `dictSet`. -/
theorem dictGet?_map_update_ne (k i : Nat) (v : String) (hik : i ≠ k) :
    ∀ d : List (Nat × String),
    dictGet? (d.map (fun p => if p.1 = k then (k, v) else p)) i = dictGet? d i
  | [] => rfl
  | q :: tail => by
    rw [List.map_cons]
    by_cases hq : q.1 = k
    · rw [if_pos hq, dictGet?_cons, dictGet?_cons]
      have hki : ¬((k, v).1 = i) := fun hh => hik hh.symm
      have hqi : ¬q.1 = i := fun hh => hik (hh.symm.trans hq)
      rw [if_neg hki, if_neg hqi]
      exact dictGet?_map_update_ne k i v hik tail
    · rw [if_neg hq, dictGet?_cons, dictGet?_cons]
      by_cases hqi : q.1 = i
      · rw [if_pos hqi, if_pos hqi]
      · rw [if_neg hqi, if_neg hqi]
        exact dictGet?_map_update_ne k i v hik tail

/-- When the key is present, the in-place update branch stores the value. -/
theorem dictGet?_map_update_self (k : Nat) (v : String) :
    ∀ d : List (Nat × String), d.any (fun p => p.1 = k) = true →
    dictGet? (d.map (fun p => if p.1 = k then (k, v) else p)) k = some v
  | [], h => by simp at h
  | q :: tail, h => by
    rw [List.map_cons]
    by_cases hq : q.1 = k
    · rw [if_pos hq, dictGet?_cons, if_pos (show (k, v).1 = k from rfl)]
    · have htail : tail.any (fun p => p.1 = k) = true := by
        rw [List.any_cons] at h
        simpa [hq] using h
      rw [if_neg hq, dictGet?_cons, if_neg hq]
      exact dictGet?_map_update_self k v tail htail

/-- Appending a fresh key does not change other lookups. -/
theorem dictGet?_append_ne (k i : Nat) (v : String) (hik : i ≠ k) :
    ∀ d : List (Nat × String), dictGet? (d ++ [(k, v)]) i = dictGet? d i
  | [] => by
    rw [List.nil_append, dictGet?_cons, if_neg (show ¬((k, v).1 = i) from fun hh => hik hh.symm)]
  | q :: tail => by
    rw [List.cons_append, dictGet?_cons, dictGet?_cons]
    by_cases hqi : q.1 = i
    · rw [if_pos hqi, if_pos hqi]
    · rw [if_neg hqi, if_neg hqi]
      exact dictGet?_append_ne k i v hik tail

/-- Appending a key absent from the dict makes it found. -/
theorem dictGet?_append_self (k : Nat) (v : String) :
    ∀ d : List (Nat × String), d.any (fun p => p.1 = k) = false →
    dictGet? (d ++ [(k, v)]) k = some v
  | [], _ => by
    rw [List.nil_append, dictGet?_cons, if_pos (show (k, v).1 = k from rfl)]
  | q :: tail, h => by
    rw [List.any_cons] at h
    have hq : ¬q.1 = k := by
      intro hh
      simp [hh] at h
    have htail : tail.any (fun p => p.1 = k) = false := by
      simpa [hq] using h
    rw [List.cons_append, dictGet?_cons, if_neg hq]
    exact dictGet?_append_self k v tail htail

/-- The Python-dict specification of `dictSet`: lookup of the written key
yields the new value, all other lookups are unchanged. -/
theorem dictGet?_dictSet (d : List (Nat × String)) (k i : Nat) (v : String) :
    dictGet? (dictSet d k v) i = if i = k then some v else dictGet? d i := by
  unfold dictSet
  by_cases hany : d.any (fun p => p.1 = k) = true
  · rw [if_pos hany]
    by_cases hik : i = k
    · rw [if_pos hik, hik]
      exact dictGet?_map_update_self k v d hany
    · rw [if_neg hik]
      exact dictGet?_map_update_ne k i v hik d
  · have hf : d.any (fun p => p.1 = k) = false := by
      cases hx : d.any (fun p => p.1 = k) with
      | true => exact absurd hx hany
      | false => rfl
    rw [if_neg hany]
    by_cases hik : i = k
    · rw [if_pos hik, hik]
      exact dictGet?_append_self k v d hf
    · rw [if_neg hik]
      exact dictGet?_append_ne k i v hik d

/-- Invariant of the summaries dict: every stored entry has an in-range
index and an at-most-80-character value. -/
def summariesInv (n : Nat) (d : List (Nat × String)) : Prop :=
  ∀ i w, dictGet? d i = some w → i < n ∧ w.length ≤ 80

/-- Each loop iteration either leaves the summaries dict unchanged or
stores one in-range, 80-character-bounded entry. -/
theorem batchStep_summaries_shape (n : Nat) (st : BatchState) (line : String) :
    (batchStep n st line).emailSummaries = st.emailSummaries ∨
    ∃ k v, k < n ∧ v.length ≤ 80 ∧
      (batchStep n st line).emailSummaries = dictSet st.emailSummaries k v := by
  simp only [batchStep]
  split
  · exact Or.inl rfl
  · split
    · exact Or.inl rfl
    · split
      · exact Or.inl rfl
      · split
        · exact Or.inl rfl
        · split
          · split
            next z heq =>
              split
              next hz =>
                refine Or.inr ⟨(z - 1).toNat, _, ?_, pySlice_length_le _ _, rfl⟩
                omega
              next hz => exact Or.inl rfl
            next heq => exact Or.inl rfl
          · exact Or.inl rfl

theorem summariesInv_batchStep (n : Nat) (st : BatchState) (line : String)
    (h : summariesInv n st.emailSummaries) :
    summariesInv n (batchStep n st line).emailSummaries := by
  rcases batchStep_summaries_shape n st line with he | ⟨k, v, hk, hv, he⟩
  · rwa [he]
  · rw [he]
    intro i w hw
    rw [dictGet?_dictSet] at hw
    by_cases hik : i = k
    · rw [if_pos hik] at hw
      cases hw
      exact ⟨hik ▸ hk, hv⟩
    · rw [if_neg hik] at hw
      exact h i w hw

theorem summariesInv_foldl (n : Nat) :
    ∀ (lines : List String) (st : BatchState), summariesInv n st.emailSummaries →
    summariesInv n ((lines.foldl (batchStep n) st).emailSummaries)
  | [], _, h => h
  | l :: rest, st, h =>
    summariesInv_foldl n rest (batchStep n st l) (summariesInv_batchStep n st l h)

theorem fillDefaults_inv (n : Nat) :
    ∀ (pairs : List (Nat × EmailData)) (d : List (Nat × String)),
    (∀ pe ∈ pairs, pe.1 < n) → summariesInv n d →
    summariesInv n (fillDefaults d pairs)
  | [], _, _, hd => hd
  | (i, e) :: rest, d, hp, hd => by
    show summariesInv n
      (fillDefaults (if (dictGet? d i).isSome then d else dictSet d i (defaultSummary e)) rest)
    apply fillDefaults_inv n rest _ (fun x hx => hp x (List.mem_cons_of_mem _ hx))
    by_cases hs : (dictGet? d i).isSome = true
    · rwa [if_pos hs]
    · rw [if_neg hs]
      intro j w hw
      rw [dictGet?_dictSet] at hw
      by_cases hji : j = i
      · rw [if_pos hji] at hw
        cases hw
        exact ⟨hji ▸ hp (i, e) (List.mem_cons_self _ _), defaultSummary_length_le e⟩
      · rw [if_neg hji] at hw
        exact hd j w hw

theorem fillDefaults_preserves_isSome :
    ∀ (pairs : List (Nat × EmailData)) (d : List (Nat × String)) (i : Nat),
    (dictGet? d i).isSome = true → (dictGet? (fillDefaults d pairs) i).isSome = true
  | [], _, _, h => h
  | (j, e) :: rest, d, i, h => by
    show (dictGet? (fillDefaults
      (if (dictGet? d j).isSome then d else dictSet d j (defaultSummary e)) rest) i).isSome = true
    apply fillDefaults_preserves_isSome rest
    by_cases hs : (dictGet? d j).isSome = true
    · rwa [if_pos hs]
    · rw [if_neg hs, dictGet?_dictSet]
      by_cases hij : i = j
      · rw [if_pos hij]
        rfl
      · rwa [if_neg hij]

theorem fillDefaults_covers :
    ∀ (pairs : List (Nat × EmailData)) (d : List (Nat × String)) (pe : Nat × EmailData),
    pe ∈ pairs → (dictGet? (fillDefaults d pairs) pe.1).isSome = true
  | [], _, pe, h => absurd h (List.not_mem_nil pe)
  | (j, e) :: rest, d, pe, h => by
    show (dictGet? (fillDefaults
      (if (dictGet? d j).isSome then d else dictSet d j (defaultSummary e)) rest) pe.1).isSome
      = true
    rcases List.mem_cons.mp h with hpe | hmem
    · apply fillDefaults_preserves_isSome
      subst hpe
      by_cases hs : (dictGet? d j).isSome = true
      · rwa [if_pos hs]
      · rw [if_neg hs, dictGet?_dictSet, if_pos rfl]
        rfl
    · exact fillDefaults_covers rest _ pe hmem

/-- Every index below the email count carries an entry in the enumerated
fill list. -/
theorem enum_fst_mem (l : List EmailData) (i : Nat) (hi : i < l.length) :
    ∃ e, (i, e) ∈ l.enum := by
  have hmem : i ∈ l.enum.map Prod.fst := by
    rw [List.enum_map_fst]
    exact List.mem_range.mpr hi
  obtain ⟨pe, hpe, hfst⟩ := List.mem_map.mp hmem
  exact ⟨pe.2, by rwa [show (i, pe.2) = pe from by rw [← hfst]]⟩

theorem enum_fst_lt (l : List EmailData) (pe : Nat × EmailData) (h : pe ∈ l.enum) :
    pe.1 < l.length := by
  have hmem : pe.1 ∈ l.enum.map Prod.fst := List.mem_map_of_mem Prod.fst h
  rw [List.enum_map_fst] at hmem
  exact List.mem_range.mp hmem

/-- C9: for every response text and non-empty email list,
`parse_emails_batch` parses the response and the resulting
`email_summaries` has an entry for every index `0..n-1`, each at most 80
characters. -/
theorem batch_summaries_cover (response : String) (emails : List EmailData)
    (h : emails ≠ []) :
    (parseEmailsBatch (.ok (.ok response)) emails).1 =
      .ok (parseBatchResponse response emails) ∧
    ∀ i, i < emails.length →
      ∃ v, dictGet? (parseBatchResponse response emails).email_summaries i = some v ∧
        v.length ≤ 80 := by
  constructor
  · have hne : emails.isEmpty = false := by
      cases emails with
      | nil => exact absurd rfl h
      | cons a t => rfl
    simp [parseEmailsBatch, hne]
  · intro i hi
    have hinv : summariesInv emails.length
        (parseBatchResponse response emails).email_summaries := by
      show summariesInv emails.length (fillDefaults
        ((pySplitChar (pyStrip response) '\n').foldl (batchStep emails.length)
          ⟨none, false, "", []⟩).emailSummaries emails.enum)
      apply fillDefaults_inv emails.length emails.enum _ (fun pe hpe => enum_fst_lt emails pe hpe)
      apply summariesInv_foldl
      intro j w hw
      simp [dictGet?, List.find?] at hw
    have hsome : (dictGet? (parseBatchResponse response emails).email_summaries i).isSome
        = true := by
      show (dictGet? (fillDefaults
        ((pySplitChar (pyStrip response) '\n').foldl (batchStep emails.length)
          ⟨none, false, "", []⟩).emailSummaries emails.enum) i).isSome = true
      obtain ⟨e, he⟩ := enum_fst_mem emails i hi
      exact fillDefaults_covers emails.enum _ (i, e) he
    obtain ⟨v, hv⟩ := Option.isSome_iff_exists.mp hsome
    exact ⟨v, hv, (hinv i v hv).2⟩

/-- Witness for C9 at a concrete response covering email 1 explicitly. -/
theorem batch_summaries_cover_witness :
    ([sampleEmail] ≠ ([] : List EmailData)) ∧
    ((parseEmailsBatch (.ok (.ok "邮件总结:\n邮件1: hello")) [sampleEmail]).1 =
      .ok (parseBatchResponse "邮件总结:\n邮件1: hello" [sampleEmail]) ∧
    ∀ i, i < ([sampleEmail] : List EmailData).length →
      ∃ v, dictGet? (parseBatchResponse "邮件总结:\n邮件1: hello"
          [sampleEmail]).email_summaries i = some v ∧ v.length ≤ 80) :=
  ⟨by decide, batch_summaries_cover "邮件总结:\n邮件1: hello" [sampleEmail] (by decide)⟩
